import Mathlib

/-!
Verification of `update_year.py`, a bulk text replacer that rewrites the
literal year `2025` to `2026` in every `.mdx` file under a fixed root
directory.

The embedding is shallow:

* file contents are `List Char` (Python reads the whole file as decoded
  text);
* `content.count('2025')` and `content.replace('2025', '2026')` are
  embedded as `count2025` and `replace2025`, the left-to-right greedy
  non-overlapping scan that Python's `str.count` / `str.replace` perform,
  specialised to the two hard-coded literals of the script;
* the filesystem and its failure modes are modelled by a per-file
  `FileOutcome` (successful read, read error, write error) and the
  effects of a run (reads, write attempts, successful writes, printed
  lines, counters) are recorded explicitly in `UpdateResult` / `RunState`;
* `main`'s loop over `base_dir.rglob('*.mdx')` is a fold over the list of
  enumerated entries filtered by the fixed `*.mdx` pattern; the state of
  the root directory is a `RootDir`, and `rglobMdx` follows CPython's
  pathlib, whose glob machinery raises nothing for a missing or
  unreadable root (it yields an empty iterator for a root that is not an
  existing directory and suppresses `PermissionError` during the walk),
  so every run of `main` completes and prints the summary block.
-/

/-- The source substring, the literal `'2025'` of `update_year.py`. -/
def year2025 : List Char := ['2', '0', '2', '5']

/-- The target substring, the literal `'2026'` of `update_year.py`. -/
def year2026 : List Char := ['2', '0', '2', '6']

/-- Embedding of `content.count('2025')` (line 17 of `update_year.py`):
Python's `str.count` scans left to right and counts non-overlapping
occurrences, skipping the length of the needle after each match. -/
def count2025 : List Char → Nat
  | '2' :: '0' :: '2' :: '5' :: rest => count2025 rest + 1
  | _ :: rest => count2025 rest
  | [] => 0

/-- Embedding of `content.replace('2025', '2026')` (line 23 of
`update_year.py`): the same greedy left-to-right scan, writing the target
in place of each match and every other character unchanged. -/
def replace2025 : List Char → List Char
  | '2' :: '0' :: '2' :: '5' :: rest => '2' :: '0' :: '2' :: '6' :: replace2025 rest
  | c :: rest => c :: replace2025 rest
  | [] => []

/-- Prepend a character to the first segment of a segment list (helper for
the decomposition of a content string around its matches). -/
def consHead (c : Char) : List (List Char) → List (List Char)
  | [] => [[c]]
  | p :: ps => (c :: p) :: ps

/-- The greedy decomposition of a content string: the list of maximal
segments lying between the non-overlapping occurrences of `2025` that the
scan of `count2025` / `replace2025` finds.  A string with `k` matches
yields `k + 1` segments. -/
def split2025 : List Char → List (List Char)
  | '2' :: '0' :: '2' :: '5' :: rest => [] :: split2025 rest
  | c :: rest => consHead c (split2025 rest)
  | [] => [[]]

/-- Join a list of segments, interposing a fixed separator between
consecutive segments. -/
def joinSep (sep : List Char) : List (List Char) → List Char
  | [] => []
  | [p] => p
  | p :: q :: ps => p ++ sep ++ joinSep sep (q :: ps)

lemma joinSep_cons_of_ne (sep p : List Char) (ps : List (List Char)) (h : ps ≠ []) :
    joinSep sep (p :: ps) = p ++ sep ++ joinSep sep ps := by
  cases ps with
  | nil => exact absurd rfl h
  | cons q ps => rfl

lemma joinSep_consHead (sep : List Char) (c : Char) (L : List (List Char)) (h : L ≠ []) :
    joinSep sep (consHead c L) = c :: joinSep sep L := by
  cases L with
  | nil => exact absurd rfl h
  | cons p ps =>
    cases ps with
    | nil => rfl
    | cons q ps => rfl

lemma consHead_length (c : Char) (L : List (List Char)) (h : L ≠ []) :
    (consHead c L).length = L.length := by
  cases L with
  | nil => exact absurd rfl h
  | cons p ps => rfl

lemma split2025_ne_nil (s : List Char) : split2025 s ≠ [] := by
  induction s using split2025.induct with
  | case1 rest ih => rw [split2025.eq_1]; exact List.cons_ne_nil _ _
  | case2 c rest hexcl ih =>
    rw [split2025.eq_2 _ _ hexcl]
    cases h : split2025 rest <;> simp [consHead]
  | case3 => simp [split2025]

/-- Gluing the greedy segments back with the source string recovers the
original content. -/
lemma joinSep_year2025_split2025 (s : List Char) :
    joinSep year2025 (split2025 s) = s := by
  induction s using split2025.induct with
  | case1 rest ih =>
    rw [split2025.eq_1, joinSep_cons_of_ne _ _ _ (split2025_ne_nil rest), ih]
    rfl
  | case2 c rest hexcl ih =>
    rw [split2025.eq_2 _ _ hexcl, joinSep_consHead _ _ _ (split2025_ne_nil rest), ih]
  | case3 => rfl

/-- The replaced content is the same greedy segments glued back with the
target string: all matches are rewritten, every character outside a match
is unchanged. -/
lemma replace2025_eq_joinSep (s : List Char) :
    replace2025 s = joinSep year2026 (split2025 s) := by
  induction s using split2025.induct with
  | case1 rest ih =>
    rw [split2025.eq_1, joinSep_cons_of_ne _ _ _ (split2025_ne_nil rest),
      replace2025.eq_1, ih]
    rfl
  | case2 c rest hexcl ih =>
    rw [split2025.eq_2 _ _ hexcl, joinSep_consHead _ _ _ (split2025_ne_nil rest),
      replace2025.eq_2 _ _ hexcl, ih]
  | case3 => rfl

/-- A content string with `k` matches splits into `k + 1` greedy segments. -/
lemma split2025_length (s : List Char) :
    (split2025 s).length = count2025 s + 1 := by
  induction s using split2025.induct with
  | case1 rest ih =>
    rw [split2025.eq_1, count2025.eq_1]
    simp [ih]
  | case2 c rest hexcl ih =>
    rw [split2025.eq_2 _ _ hexcl, count2025.eq_2 _ _ hexcl,
      consHead_length _ _ (split2025_ne_nil rest), ih]
  | case3 => rfl

/-- Replacement preserves the length of the content: source and target
have the same length. -/
lemma replace2025_length (s : List Char) :
    (replace2025 s).length = s.length := by
  induction s using replace2025.induct with
  | case1 rest ih => rw [replace2025.eq_1]; simp [ih]
  | case2 c rest hexcl ih => rw [replace2025.eq_2 _ _ hexcl]; simp [ih]
  | case3 => rfl

/-- If the replaced string exposes the tail `'5' :: _` at its head, the
original already started with `'5'`. -/
lemma replace2025_head5 (v t : List Char) (h : replace2025 v = '5' :: t) :
    ∃ u, v = '5' :: u := by
  by_cases hm : ∃ r, v = '2' :: '0' :: '2' :: '5' :: r
  · obtain ⟨r, rfl⟩ := hm
    rw [replace2025.eq_1] at h
    simp at h
  · cases v with
    | nil => rw [replace2025.eq_3] at h; exact absurd h (by simp)
    | cons c r =>
      have hexcl : ∀ r1, c = '2' → r = '0' :: '2' :: '5' :: r1 → False := by
        intro r1 h1 h2
        exact hm ⟨r1, by rw [h1, h2]⟩
      rw [replace2025.eq_2 _ _ hexcl, List.cons.injEq] at h
      exact ⟨r, by rw [h.1]⟩

/-- If the replaced string exposes `'2' :: '5' :: _` at its head, the
original already started with `'2' :: '5'`. -/
lemma replace2025_head25 (v t : List Char) (h : replace2025 v = '2' :: '5' :: t) :
    ∃ u, v = '2' :: '5' :: u := by
  by_cases hm : ∃ r, v = '2' :: '0' :: '2' :: '5' :: r
  · obtain ⟨r, rfl⟩ := hm
    rw [replace2025.eq_1] at h
    simp at h
  · cases v with
    | nil => rw [replace2025.eq_3] at h; exact absurd h (by simp)
    | cons c r =>
      have hexcl : ∀ r1, c = '2' → r = '0' :: '2' :: '5' :: r1 → False := by
        intro r1 h1 h2
        exact hm ⟨r1, by rw [h1, h2]⟩
      rw [replace2025.eq_2 _ _ hexcl, List.cons.injEq] at h
      obtain ⟨u, hu⟩ := replace2025_head5 r t h.2
      exact ⟨u, by rw [h.1, hu]⟩

/-- If the replaced string exposes `'0' :: '2' :: '5' :: _` at its head,
the original already started with `'0' :: '2' :: '5'`. -/
lemma replace2025_head025 (v t : List Char) (h : replace2025 v = '0' :: '2' :: '5' :: t) :
    ∃ u, v = '0' :: '2' :: '5' :: u := by
  by_cases hm : ∃ r, v = '2' :: '0' :: '2' :: '5' :: r
  · obtain ⟨r, rfl⟩ := hm
    rw [replace2025.eq_1] at h
    simp at h
  · cases v with
    | nil => rw [replace2025.eq_3] at h; exact absurd h (by simp)
    | cons c r =>
      have hexcl : ∀ r1, c = '2' → r = '0' :: '2' :: '5' :: r1 → False := by
        intro r1 h1 h2
        exact hm ⟨r1, by rw [h1, h2]⟩
      rw [replace2025.eq_2 _ _ hexcl, List.cons.injEq] at h
      obtain ⟨u, hu⟩ := replace2025_head25 r t h.2
      exact ⟨u, by rw [h.1, hu]⟩

/-- After one replacement pass no occurrence of the source string remains:
the target `2026` differs from the source and cannot recombine with the
surrounding text into a new `2025`. -/
lemma count2025_replace2025 (s : List Char) :
    count2025 (replace2025 s) = 0 := by
  induction s using replace2025.induct with
  | case1 rest ih =>
    rw [replace2025.eq_1]
    have hskip : count2025 ('2' :: '0' :: '2' :: '6' :: replace2025 rest)
        = count2025 (replace2025 rest) := rfl
    rw [hskip, ih]
  | case2 c rest hexcl ih =>
    rw [replace2025.eq_2 _ _ hexcl]
    by_cases hm : ∃ r1, c = '2' ∧ replace2025 rest = '0' :: '2' :: '5' :: r1
    · obtain ⟨r1, hc, hr⟩ := hm
      obtain ⟨u, hu⟩ := replace2025_head025 rest r1 hr
      exact (hexcl u hc hu).elim
    · have hexcl2 : ∀ r1, c = '2' → replace2025 rest = '0' :: '2' :: '5' :: r1 → False := by
        intro r1 h1 h2
        exact hm ⟨r1, h1, h2⟩
      rw [count2025.eq_2 _ _ hexcl2, ih]
  | case3 => rfl

example : count2025 "Copyright 2025. Valid through 2025.".toList = 2 := by decide
example : replace2025 "Copyright 2025. Valid through 2025.".toList
    = "Copyright 2026. Valid through 2026.".toList := by decide
example : count2025 "202025".toList = 1 := by decide
example : replace2025 "202025".toList = "202026".toList := by decide

/-! ## The per-file operation and the run model -/

/-- What the filesystem does for one file during the run: the read yields
the file's text, or the read raises, or the read succeeds and the
subsequent write (when one is attempted) raises.  Exceptions are the only
failure modes of the Python code's `try` block. -/
inductive FileOutcome where
  | ok (content : List Char)
  | readErr (msg : String)
  | writeErr (content : List Char) (msg : String)

/-- The observable result of a call to `update_year_in_file`: the returned
count (a Python `int`), the paths opened for reading, the paths opened for
writing, the successful writes performed (path and new content), and the
error lines printed by the `except` handler. -/
structure UpdateResult where
  count : Int
  reads : List String
  writeAttempts : List String
  writes : List (String × List Char)
  errors : List (List Char)
deriving DecidableEq

/-- The line printed by the `except` branch:
`f"Error procesando {file_path}: {e}"`. -/
def errorLine (p msg : String) : List Char :=
  "Error procesando ".toList ++ p.toList ++ ": ".toList ++ msg.toList

/-- Embedding of `update_year_in_file` (lines 10-32 of `update_year.py`):
read the file, count occurrences of `2025`; on zero occurrences return `0`
with no write; otherwise replace and write back, returning the count; any
exception is caught, an error line naming the path and message is printed,
and `0` is returned. -/
def update_year_in_file (p : String) : FileOutcome → UpdateResult
  | FileOutcome.ok content =>
    if count2025 content = 0 then
      ⟨0, [p], [], [], []⟩
    else
      ⟨(count2025 content : Int), [p], [p], [(p, replace2025 content)], []⟩
  | FileOutcome.readErr msg => ⟨0, [p], [], [], [errorLine p msg]⟩
  | FileOutcome.writeErr content msg =>
    if count2025 content = 0 then
      ⟨0, [p], [], [], []⟩
    else
      ⟨0, [p], [p], [], [errorLine p msg]⟩

/-- One enumerated directory entry: its path (relative to the root
`src/content/calculators`) and what the filesystem does for it. -/
structure FsEntry where
  path : String
  outcome : FileOutcome

/-- The fixed `rglob('*.mdx')` filter of `main`: a path matches when its
name ends in `.mdx`. -/
def matchesMdx (p : String) : Bool :=
  List.isSuffixOf ".mdx".toList p.toList

/-- The line printed by `main` for an updated file:
`f"OK {mdx_file.relative_to(base_dir)}: {replacements} reemplazos"`. -/
def okLine (p : String) (c : Int) : List Char :=
  "OK ".toList ++ p.toList ++ ": ".toList ++ (toString c).toList ++ " reemplazos".toList

/-- The `UpdateResult` of one enumerated entry. -/
def entryResult (e : FsEntry) : UpdateResult :=
  update_year_in_file e.path e.outcome

/-- The count returned for one enumerated entry. -/
def entryCount (e : FsEntry) : Int :=
  (entryResult e).count

/-- The lines printed while processing one entry: the error lines of the
`except` handler, then the `OK` line when the count is positive. -/
def entryLines (e : FsEntry) : List (List Char) :=
  (entryResult e).errors ++
    (if 0 < entryCount e then [okLine e.path (entryCount e)] else [])

/-- The contribution of one entry to `total_files` (line 45). -/
def entryFilesInc (e : FsEntry) : Int :=
  if 0 < entryCount e then 1 else 0

/-- The contribution of one entry to `total_replacements` (line 46). -/
def entryAdd (e : FsEntry) : Int :=
  if 0 < entryCount e then entryCount e else 0

/-- Whether an entry is reported as updated (`replacements > 0`). -/
def entryUpdated (e : FsEntry) : Bool :=
  0 < entryCount e

/-- The accumulated state of a run of `main`: lines printed so far, paths
opened for reading and writing, writes performed, and the two counters. -/
structure RunState where
  lines : List (List Char)
  reads : List String
  writeAttempts : List String
  writes : List (String × List Char)
  total_files : Int
  total_replacements : Int

/-- `total_files = 0` and `total_replacements = 0` before the loop. -/
def initState : RunState :=
  ⟨[], [], [], [], 0, 0⟩

/-- One iteration of `main`'s loop (lines 42-47): call
`update_year_in_file`, and when the returned count is positive bump both
counters and print the `OK` line. -/
def runStep (st : RunState) (e : FsEntry) : RunState :=
  ⟨st.lines ++ entryLines e,
   st.reads ++ (entryResult e).reads,
   st.writeAttempts ++ (entryResult e).writeAttempts,
   st.writes ++ (entryResult e).writes,
   st.total_files + entryFilesInc e,
   st.total_replacements + entryAdd e⟩

/-- The summary block printed after the loop (lines 49-53). -/
def summaryLines (st : RunState) : List (List Char) :=
  [List.replicate 60 '=',
   "Resumen:".toList,
   "  Archivos actualizados: ".toList ++ (toString st.total_files).toList,
   "  Total de reemplazos: ".toList ++ (toString st.total_replacements).toList,
   List.replicate 60 '=']

/-- The state of the fixed root directory `src/content/calculators` at the
start of a run: an existing readable directory with its enumerated
entries, a missing root, or a root whose listing is denied. -/
inductive RootDir where
  | present (entries : List FsEntry)
  | missing
  | unreadable

/-- Embedding of `base_dir.rglob('*.mdx')` (line 42): the recursive
enumeration of the entries under the root whose names match the fixed
`*.mdx` pattern.  CPython's pathlib raises nothing here for a bad root:
`select_from` returns an empty iterator when the root is not an existing
directory, and the glob selectors catch `PermissionError` during the
walk, so a missing or unreadable root yields an empty enumeration. -/
def rglobMdx : RootDir → List FsEntry
  | RootDir.present entries => entries.filter fun e => matchesMdx e.path
  | RootDir.missing => []
  | RootDir.unreadable => []

/-- Embedding of `main` (lines 34-53): enumerate the `*.mdx` entries under
the root and process them in order by `runStep`.  The enumeration itself
cannot raise (see `rglobMdx`), and `main` installs no handler of its own,
so every run folds over the enumerated list and reaches the summary
block. -/
def mainRun (root : RootDir) : RunState :=
  (rglobMdx root).foldl runStep initState

/-! ## Helper lemmas about the run model -/

lemma entryResult_reads (e : FsEntry) : (entryResult e).reads = [e.path] := by
  obtain ⟨p, o⟩ := e
  cases o <;> simp [entryResult, update_year_in_file, apply_ite]

lemma entryResult_writeAttempts (e : FsEntry) :
    ∀ q ∈ (entryResult e).writeAttempts, q = e.path := by
  obtain ⟨p, o⟩ := e
  intro q hq
  cases o with
  | ok content =>
    simp only [entryResult, update_year_in_file] at hq
    split at hq
    · simp at hq
    · simpa using hq
  | readErr msg => simp [entryResult, update_year_in_file] at hq
  | writeErr content msg =>
    simp only [entryResult, update_year_in_file] at hq
    split at hq
    · simp at hq
    · simpa using hq

lemma entryResult_writes (e : FsEntry) :
    ∀ pc ∈ (entryResult e).writes, pc.1 = e.path := by
  obtain ⟨p, o⟩ := e
  intro pc hpc
  cases o with
  | ok content =>
    simp only [entryResult, update_year_in_file] at hpc
    split at hpc
    · simp at hpc
    · simp at hpc
      rw [hpc]
  | readErr msg => simp [entryResult, update_year_in_file] at hpc
  | writeErr content msg =>
    simp only [entryResult, update_year_in_file] at hpc
    split at hpc
    · simp at hpc
    · simp at hpc

lemma entryResult_errors (e : FsEntry) :
    ∀ l ∈ (entryResult e).errors, ∃ msg, l = errorLine e.path msg := by
  obtain ⟨p, o⟩ := e
  intro l hl
  cases o with
  | ok content =>
    simp only [entryResult, update_year_in_file] at hl
    split at hl <;> simp at hl
  | readErr msg =>
    simp only [entryResult, update_year_in_file, List.mem_singleton] at hl
    exact ⟨msg, hl⟩
  | writeErr content msg =>
    simp only [entryResult, update_year_in_file] at hl
    split at hl
    · simp at hl
    · simp only [List.mem_singleton] at hl
      exact ⟨msg, hl⟩

lemma foldl_runStep_lines (es : List FsEntry) (st : RunState) :
    (es.foldl runStep st).lines = st.lines ++ (es.map entryLines).flatten := by
  induction es generalizing st with
  | nil => simp
  | cons e es ih =>
    rw [List.foldl_cons, ih]
    simp [runStep, List.append_assoc]

lemma foldl_runStep_reads (es : List FsEntry) (st : RunState) :
    (es.foldl runStep st).reads = st.reads ++ es.map (fun e => e.path) := by
  induction es generalizing st with
  | nil => simp
  | cons e es ih =>
    rw [List.foldl_cons, ih]
    simp [runStep, entryResult_reads, List.append_assoc]

lemma foldl_runStep_writeAttempts (es : List FsEntry) (st : RunState) :
    ∀ q ∈ (es.foldl runStep st).writeAttempts,
      q ∈ st.writeAttempts ∨ ∃ e ∈ es, q = e.path := by
  induction es generalizing st with
  | nil => intro q hq; exact Or.inl hq
  | cons e es ih =>
    intro q hq
    rw [List.foldl_cons] at hq
    rcases ih (runStep st e) q hq with h | ⟨e', he', hq'⟩
    · simp only [runStep, List.mem_append] at h
      rcases h with h | h
      · exact Or.inl h
      · exact Or.inr ⟨e, List.mem_cons_self e es, entryResult_writeAttempts e q h⟩
    · exact Or.inr ⟨e', List.mem_cons_of_mem e he', hq'⟩

lemma foldl_runStep_writes (es : List FsEntry) (st : RunState) :
    ∀ pc ∈ (es.foldl runStep st).writes,
      pc ∈ st.writes ∨ ∃ e ∈ es, pc.1 = e.path := by
  induction es generalizing st with
  | nil => intro pc hpc; exact Or.inl hpc
  | cons e es ih =>
    intro pc hpc
    rw [List.foldl_cons] at hpc
    rcases ih (runStep st e) pc hpc with h | ⟨e', he', hpc'⟩
    · simp only [runStep, List.mem_append] at h
      rcases h with h | h
      · exact Or.inl h
      · exact Or.inr ⟨e, List.mem_cons_self e es, entryResult_writes e pc h⟩
    · exact Or.inr ⟨e', List.mem_cons_of_mem e he', hpc'⟩

lemma foldl_runStep_total_replacements (es : List FsEntry) (st : RunState) :
    (es.foldl runStep st).total_replacements
      = st.total_replacements + (es.map entryAdd).sum := by
  induction es generalizing st with
  | nil => simp
  | cons e es ih =>
    rw [List.foldl_cons, ih]
    simp [runStep]
    omega

lemma foldl_runStep_total_files (es : List FsEntry) (st : RunState) :
    (es.foldl runStep st).total_files
      = st.total_files + (es.map entryFilesInc).sum := by
  induction es generalizing st with
  | nil => simp
  | cons e es ih =>
    rw [List.foldl_cons, ih]
    simp [runStep]
    omega

lemma sum_entryAdd (es : List FsEntry) :
    (es.map entryAdd).sum = ((es.filter entryUpdated).map entryCount).sum := by
  induction es with
  | nil => rfl
  | cons e es ih =>
    by_cases h : 0 < entryCount e
    · simp [entryAdd, entryUpdated, h, ih]
    · simp [entryAdd, entryUpdated, h, ih]

lemma sum_entryFilesInc (es : List FsEntry) :
    (es.map entryFilesInc).sum = ((es.filter entryUpdated).length : Int) := by
  induction es with
  | nil => rfl
  | cons e es ih =>
    by_cases h : 0 < entryCount e
    · simp [entryFilesInc, entryUpdated, h, ih]
      omega
    · simp [entryFilesInc, entryUpdated, h, ih]

lemma okLine_ne_errorLine (p : String) (c : Int) (p' msg : String) :
    okLine p c ≠ errorLine p' msg := by
  intro h
  have h1 : (okLine p c).head? = some 'O' := rfl
  have h2 : (errorLine p' msg).head? = some 'E' := rfl
  rw [h, h2] at h1
  simp at h1

/-! ## Concrete run used by the witnesses (the example of spec section 8) -/

/-- The content of `a.mdx` in the spec's worked example. -/
def exampleContent : List Char := "Copyright 2025. Valid through 2025.".toList

/-- The directory tree of the spec's worked example: two `.mdx` files and
one `.txt` file. -/
def exampleEntries : List FsEntry :=
  [⟨"a.mdx", FileOutcome.ok exampleContent⟩,
   ⟨"b.mdx", FileOutcome.ok "no year here".toList⟩,
   ⟨"c.txt", FileOutcome.ok "2025".toList⟩]

/-- The final state of the run on the example tree. -/
def exampleRun : RunState :=
  (exampleEntries.filter fun e => matchesMdx e.path).foldl runStep initState

example : exampleRun.total_files = 1 := by decide
example : exampleRun.total_replacements = 2 := by decide

/-! ## The claims -/

/-- Claim C1: for every file whose content contains the source substring
`2025` occurring `k` non-overlapping times with `k > 0`,
`update_year_in_file` returns count `k` and writes back the old content
with all `k` occurrences replaced by `2026`: the content decomposes into
the `k + 1` greedy segments around the occurrences, the old content is
those segments joined by `2025`, the written content is the same segments
joined by `2026`, so every character outside the occurrences is
unchanged. -/
theorem update_count_correct (p : String) (content : List Char)
    (h : 0 < count2025 content) :
    update_year_in_file p (FileOutcome.ok content)
      = ⟨(count2025 content : Int), [p], [p], [(p, replace2025 content)], []⟩ ∧
    (split2025 content).length = count2025 content + 1 ∧
    content = joinSep year2025 (split2025 content) ∧
    replace2025 content = joinSep year2026 (split2025 content) := by
  refine ⟨?_, split2025_length content, (joinSep_year2025_split2025 content).symm,
    replace2025_eq_joinSep content⟩
  have hk : count2025 content ≠ 0 := by omega
  simp [update_year_in_file, hk]

/-- Witness for C1 on the spec's example content, which contains `2025`
twice. -/
theorem update_count_correct_witness :
    0 < count2025 exampleContent ∧
    (update_year_in_file "a.mdx" (FileOutcome.ok exampleContent)
        = ⟨(count2025 exampleContent : Int), ["a.mdx"], ["a.mdx"],
            [("a.mdx", replace2025 exampleContent)], []⟩ ∧
      (split2025 exampleContent).length = count2025 exampleContent + 1 ∧
      exampleContent = joinSep year2025 (split2025 exampleContent) ∧
      replace2025 exampleContent = joinSep year2026 (split2025 exampleContent)) :=
  ⟨by decide, update_count_correct "a.mdx" exampleContent (by decide)⟩

/-- Claim C2: after one successful replacement pass the content contains
zero occurrences of `2025`, so a second run of the replacer on it counts
zero, performs no replacement and no write. -/
theorem second_run_zero (p : String) (content : List Char) :
    count2025 (replace2025 content) = 0 ∧
    update_year_in_file p (FileOutcome.ok (replace2025 content))
      = ⟨0, [p], [], [], []⟩ := by
  refine ⟨count2025_replace2025 content, ?_⟩
  simp [update_year_in_file, count2025_replace2025 content]

/-- Claim C3: a file with zero occurrences of `2025` is not written (no
write is attempted, no content is written), the call returns `0`, nothing
is printed for it, and it contributes zero to both summary counters. -/
theorem untouched_if_absent (p : String) (content : List Char) (st : RunState)
    (h : count2025 content = 0) :
    update_year_in_file p (FileOutcome.ok content) = ⟨0, [p], [], [], []⟩ ∧
    (runStep st ⟨p, FileOutcome.ok content⟩).writes = st.writes ∧
    (runStep st ⟨p, FileOutcome.ok content⟩).writeAttempts = st.writeAttempts ∧
    (runStep st ⟨p, FileOutcome.ok content⟩).lines = st.lines ∧
    (runStep st ⟨p, FileOutcome.ok content⟩).total_files = st.total_files ∧
    (runStep st ⟨p, FileOutcome.ok content⟩).total_replacements = st.total_replacements := by
  have h1 : update_year_in_file p (FileOutcome.ok content) = ⟨0, [p], [], [], []⟩ := by
    simp [update_year_in_file, h]
  have hc : entryCount ⟨p, FileOutcome.ok content⟩ = 0 := by
    simp [entryCount, entryResult, h1]
  refine ⟨h1, ?_, ?_, ?_, ?_, ?_⟩ <;>
    simp [runStep, entryResult, entryLines, entryAdd, entryFilesInc, entryCount, h1, hc]

/-- Witness for C3 on the example file `b.mdx`, whose content has no
occurrence. -/
theorem untouched_if_absent_witness :
    count2025 "no year here".toList = 0 ∧
    (update_year_in_file "b.mdx" (FileOutcome.ok "no year here".toList)
        = ⟨0, ["b.mdx"], [], [], []⟩ ∧
      (runStep initState ⟨"b.mdx", FileOutcome.ok "no year here".toList⟩).writes
        = initState.writes ∧
      (runStep initState ⟨"b.mdx", FileOutcome.ok "no year here".toList⟩).writeAttempts
        = initState.writeAttempts ∧
      (runStep initState ⟨"b.mdx", FileOutcome.ok "no year here".toList⟩).lines
        = initState.lines ∧
      (runStep initState ⟨"b.mdx", FileOutcome.ok "no year here".toList⟩).total_files
        = initState.total_files ∧
      (runStep initState ⟨"b.mdx", FileOutcome.ok "no year here".toList⟩).total_replacements
        = initState.total_replacements) :=
  ⟨by decide, untouched_if_absent "b.mdx" "no year here".toList initState (by decide)⟩

/-- Claim C4: a read or write error on an individual file is caught inside
`update_year_in_file`: an error line containing the file path and the
message is printed, the call returns `0`, and the run continues with the
remaining files, the failed file contributing zero to both counters. -/
theorem per_file_error_recovered (p msg : String) (content : List Char)
    (st : RunState) (es : List FsEntry) (h : 0 < count2025 content) :
    update_year_in_file p (FileOutcome.readErr msg)
      = ⟨0, [p], [], [], [errorLine p msg]⟩ ∧
    update_year_in_file p (FileOutcome.writeErr content msg)
      = ⟨0, [p], [p], [], [errorLine p msg]⟩ ∧
    List.IsInfix p.toList (errorLine p msg) ∧
    List.IsInfix msg.toList (errorLine p msg) ∧
    List.foldl runStep st (⟨p, FileOutcome.readErr msg⟩ :: es)
      = List.foldl runStep (runStep st ⟨p, FileOutcome.readErr msg⟩) es ∧
    (List.foldl runStep st (⟨p, FileOutcome.readErr msg⟩ :: es)).total_replacements
      = (List.foldl runStep st es).total_replacements ∧
    (List.foldl runStep st (⟨p, FileOutcome.readErr msg⟩ :: es)).total_files
      = (List.foldl runStep st es).total_files := by
  have hw : update_year_in_file p (FileOutcome.writeErr content msg)
      = ⟨0, [p], [p], [], [errorLine p msg]⟩ := by
    have hk : count2025 content ≠ 0 := by omega
    simp [update_year_in_file, hk]
  have hbad : entryCount ⟨p, FileOutcome.readErr msg⟩ = 0 := rfl
  refine ⟨rfl, hw,
    ⟨"Error procesando ".toList, ": ".toList ++ msg.toList, by simp [errorLine]⟩,
    ⟨"Error procesando ".toList ++ p.toList ++ ": ".toList, [], by simp [errorLine]⟩,
    rfl, ?_, ?_⟩
  · rw [List.foldl_cons, foldl_runStep_total_replacements, foldl_runStep_total_replacements]
    have hz : (runStep st ⟨p, FileOutcome.readErr msg⟩).total_replacements
        = st.total_replacements := by
      simp [runStep, entryAdd, hbad]
    rw [hz]
  · rw [List.foldl_cons, foldl_runStep_total_files, foldl_runStep_total_files]
    have hz : (runStep st ⟨p, FileOutcome.readErr msg⟩).total_files = st.total_files := by
      simp [runStep, entryFilesInc, hbad]
    rw [hz]

/-- Witness for C4 at a concrete failing file. -/
theorem per_file_error_recovered_witness :
    0 < count2025 "2025".toList ∧
    (update_year_in_file "a.mdx" (FileOutcome.readErr "Permission denied")
        = ⟨0, ["a.mdx"], [], [], [errorLine "a.mdx" "Permission denied"]⟩ ∧
      update_year_in_file "a.mdx" (FileOutcome.writeErr "2025".toList "Permission denied")
        = ⟨0, ["a.mdx"], ["a.mdx"], [], [errorLine "a.mdx" "Permission denied"]⟩ ∧
      List.IsInfix "a.mdx".toList (errorLine "a.mdx" "Permission denied") ∧
      List.IsInfix "Permission denied".toList (errorLine "a.mdx" "Permission denied") ∧
      List.foldl runStep initState [⟨"a.mdx", FileOutcome.readErr "Permission denied"⟩]
        = List.foldl runStep
            (runStep initState ⟨"a.mdx", FileOutcome.readErr "Permission denied"⟩) [] ∧
      (List.foldl runStep initState
          [⟨"a.mdx", FileOutcome.readErr "Permission denied"⟩]).total_replacements
        = (List.foldl runStep initState ([] : List FsEntry)).total_replacements ∧
      (List.foldl runStep initState
          [⟨"a.mdx", FileOutcome.readErr "Permission denied"⟩]).total_files
        = (List.foldl runStep initState ([] : List FsEntry)).total_files) :=
  ⟨by decide, per_file_error_recovered "a.mdx" "Permission denied" "2025".toList
    initState [] (by decide)⟩

/-- Counterexample to claim C5 as stated: with the root directory missing
(and likewise unreadable), the enumeration raises nothing and yields no
entries, so the run does not terminate early — it completes normally,
returning the initial state and printing the zero summary block. -/
theorem enumeration_failure_counterexample :
    mainRun RootDir.missing = initState ∧
    mainRun RootDir.unreadable = initState ∧
    (mainRun RootDir.missing).total_files = 0 ∧
    (mainRun RootDir.missing).total_replacements = 0 ∧
    summaryLines (mainRun RootDir.missing) = summaryLines initState :=
  ⟨rfl, rfl, rfl, rfl, rfl⟩

/-- Claim C5 (amended): a missing or unreadable root directory does not
make the enumeration fail — `rglob` yields an empty enumeration — so the
run reads and writes no file, both counters stay at zero, and the run
completes normally with the summary block. -/
theorem bad_root_completes_empty (root : RootDir)
    (h : root = RootDir.missing ∨ root = RootDir.unreadable) :
    rglobMdx root = [] ∧
    mainRun root = initState ∧
    (mainRun root).reads = [] ∧
    (mainRun root).writeAttempts = [] ∧
    (mainRun root).writes = [] ∧
    (mainRun root).total_files = 0 ∧
    (mainRun root).total_replacements = 0 := by
  rcases h with rfl | rfl <;> exact ⟨rfl, rfl, rfl, rfl, rfl, rfl, rfl⟩

/-- Witness for the amended C5 at the missing root. -/
theorem bad_root_completes_empty_witness :
    (RootDir.missing = RootDir.missing ∨ RootDir.missing = RootDir.unreadable) ∧
    (rglobMdx RootDir.missing = [] ∧
     mainRun RootDir.missing = initState ∧
     (mainRun RootDir.missing).reads = [] ∧
     (mainRun RootDir.missing).writeAttempts = [] ∧
     (mainRun RootDir.missing).writes = [] ∧
     (mainRun RootDir.missing).total_files = 0 ∧
     (mainRun RootDir.missing).total_replacements = 0) :=
  ⟨Or.inl rfl, bad_root_completes_empty RootDir.missing (Or.inl rfl)⟩

/-- Claim C6: at the end of a run, `total_replacements` equals the sum of
the per-file counts printed during the run (the counts of the entries
reported as updated), and `total_files` equals the number of enumerated
files whose count was positive. -/
theorem aggregate_consistency (entries : List FsEntry) (st : RunState)
    (h : mainRun (RootDir.present entries) = st) :
    st.total_replacements
      = (((entries.filter fun e => matchesMdx e.path).filter entryUpdated).map entryCount).sum ∧
    st.total_files
      = (((entries.filter fun e => matchesMdx e.path).filter entryUpdated).length : Int) := by
  subst h
  simp only [mainRun, rglobMdx]
  constructor
  · rw [foldl_runStep_total_replacements, sum_entryAdd]
    simp [initState]
  · rw [foldl_runStep_total_files, sum_entryFilesInc]
    simp [initState]

/-- Witness for C6 on the example run (1 file updated, 2 replacements). -/
theorem aggregate_consistency_witness :
    exampleRun.total_replacements
      = (((exampleEntries.filter fun e => matchesMdx e.path).filter entryUpdated).map
          entryCount).sum ∧
    exampleRun.total_files
      = (((exampleEntries.filter fun e => matchesMdx e.path).filter entryUpdated).length : Int) :=
  aggregate_consistency exampleEntries exampleRun rfl

/-- Claim C7: the `OK` line for a file is among the lines printed while
processing that file exactly when its returned count is positive; a file
that failed or had no occurrence is never reported as updated. -/
theorem updated_line_iff (e : FsEntry) :
    okLine e.path (entryCount e) ∈ entryLines e ↔ 0 < entryCount e := by
  constructor
  · intro hmem
    by_contra hn
    simp only [entryLines, if_neg hn, List.append_nil] at hmem
    obtain ⟨msg, hmsg⟩ := entryResult_errors e _ hmem
    exact okLine_ne_errorLine e.path (entryCount e) e.path msg hmsg
  · intro hp
    simp only [entryLines, if_pos hp]
    exact List.mem_append_right _ (List.mem_singleton.mpr rfl)

/-- Claim C8: every path the run opens for reading or writing, and every
path written, matches the fixed `*.mdx` filter; files elsewhere in the
tree are untouched. -/
theorem only_mdx_files_touched (entries : List FsEntry) (st : RunState)
    (h : mainRun (RootDir.present entries) = st) :
    (∀ p ∈ st.reads, matchesMdx p = true) ∧
    (∀ q ∈ st.writeAttempts, matchesMdx q = true) ∧
    (∀ pc ∈ st.writes, matchesMdx pc.1 = true) := by
  subst h
  simp only [mainRun, rglobMdx]
  refine ⟨?_, ?_, ?_⟩
  · intro p hp
    rw [foldl_runStep_reads] at hp
    simp only [initState, List.nil_append, List.mem_map] at hp
    obtain ⟨e, he, rfl⟩ := hp
    exact (List.mem_filter.mp he).2
  · intro q hq
    rcases foldl_runStep_writeAttempts _ _ q hq with hq' | ⟨e, he, rfl⟩
    · simp [initState] at hq'
    · exact (List.mem_filter.mp he).2
  · intro pc hpc
    rcases foldl_runStep_writes _ _ pc hpc with hpc' | ⟨e, he, hpc'⟩
    · simp [initState] at hpc'
    · rw [hpc']
      exact (List.mem_filter.mp he).2

/-- Witness for C8: in the example run, `a.mdx` was read and matches the
filter. -/
theorem only_mdx_files_touched_witness : matchesMdx "a.mdx" = true :=
  (only_mdx_files_touched exampleEntries exampleRun rfl).1 "a.mdx" (by decide)

/-- Claim C9: since the source `2025` and the target `2026` have equal
length, the replaced content has exactly the length of the original,
whether or not any replacement occurred. -/
theorem replace_preserves_length (content : List Char) :
    (replace2025 content).length = content.length :=
  replace2025_length content

/-- Claim C10: `update_year_in_file` is total at its interface: it is
defined on every file outcome, including both failure modes, and the
integer it returns is never negative. -/
theorem update_returns_nonneg (p : String) (o : FileOutcome) :
    0 ≤ (update_year_in_file p o).count := by
  cases o with
  | ok content =>
    by_cases h : count2025 content = 0 <;> simp [update_year_in_file, h]
  | readErr msg => simp [update_year_in_file]
  | writeErr content msg =>
    by_cases h : count2025 content = 0 <;> simp [update_year_in_file, h]
